import Mathlib

/-!
Verification of the appointment-scheduling backend (src/app.js, with the reduced
deployment variant in src/unnamed/part_000).

The service is CRUD glue over a single SQL table `Appointment`.  We embed the
table as a list of rows together with the auto-increment counter for
`appointment_id`, and embed each route handler as a pure function from the
request data and the store to an HTTP result (status code, message) and the
successor store.  Database errors (the 500 paths) are environment failures with
no effect on the modelled state, so the embedding models the error-free
execution of each query.  Queries issued by one handler run sequentially, which
the straight-line Lean definitions reproduce.
-/

/-- A row of the `Appointment` table.  `appointment_id` is the store-generated
key; the remaining fields are as inserted by the handlers in src/app.js
(`status` is free text defaulting to `Scheduled`).  Dates and times are kept as
the strings the service passes to SQL. -/
structure Row where
  appointment_id : Nat
  patient_id : Int
  doctor_id : Int
  appointment_date : String
  appointment_time : String
  status : String
deriving Repr, DecidableEq

/-- The appointment store: the rows of the `Appointment` table plus the
auto-increment counter used for the next inserted `appointment_id`. -/
structure Store where
  rows : List Row
  nextId : Nat
deriving Repr, DecidableEq

/-- The empty `Appointment` table. -/
def Store.empty : Store := ⟨[], 0⟩

/-- Helper for `jsSplit`: walk the characters, cutting at each separator.
JavaScript `String.prototype.split` with a one-character separator produces the
piece accumulated so far at every separator occurrence, including empty
pieces. -/
def jsSplitGo (sep : Char) : List Char → List Char → List String
  | [], acc => [String.mk acc]
  | c :: cs, acc =>
    if c == sep then String.mk acc :: jsSplitGo sep cs []
    else jsSplitGo sep cs (acc ++ [c])

/-- Model of JavaScript `s.split(sep)` for a one-character separator, as used by
`isValidTimeSlot` (src/app.js line 85).  Mirrors JS semantics: splitting the
empty string gives `[""]`, adjacent separators give empty pieces. -/
def jsSplit (sep : Char) (s : String) : List String := jsSplitGo sep s.data []

/-- Helper for `digitsToNat`: accumulate decimal digits, failing on the first
non-digit character. -/
def digitsToNatAux : List Char → Nat → Option Nat
  | [], acc => some acc
  | c :: cs, acc => if c.isDigit then digitsToNatAux cs (acc * 10 + (c.toNat - 48)) else none

/-- Parse a nonempty all-digit character list as a decimal number; `none`
otherwise. -/
def digitsToNat : List Char → Option Nat
  | [] => none
  | cs => digitsToNatAux cs 0

/-- Model of the JavaScript `Number` builtin applied to a string, as used in
`isValidTimeSlot` (src/app.js line 85), on the fragment of inputs the service
meets: the empty string converts to `0`, an optional sign followed by decimal
digits converts to the signed value, and any other string converts to `NaN`
(rendered as `none`).  Fractional, exponent, hexadecimal and whitespace forms
of `Number` are outside the scope of the properties checked here. -/
def jsNumberChars : List Char → Option Int
  | [] => some 0
  | '-' :: cs => (digitsToNat cs).map (fun n => -(n : Int))
  | '+' :: cs => (digitsToNat cs).map (fun n => (n : Int))
  | cs => (digitsToNat cs).map (fun n => (n : Int))

/-- String-level wrapper of `jsNumberChars`. -/
def jsNumber (s : String) : Option Int := jsNumberChars s.data

/-- src/app.js lines 84-87:
`const [hours, minutes] = time.split(':').map(Number); return minutes === 0 || minutes === 30;`
The destructuring reads only index 1 of the split; a missing element
(`undefined`) or a `NaN` fails both strict equalities. -/
def isValidTimeSlot (time : String) : Bool :=
  match (jsSplit ':' time).map jsNumber with
  | _ :: some m :: _ => m == 0 || m == 30
  | _ => false

/-- Request body of POST /book-appointment.  A JSON field that is absent is
`none`; a field that is present carries its value.  The identifiers arrive as
JSON numbers and the date/time as strings, matching how the frontend and the
seed routine use the API.  JavaScript truthiness of a present field is then
`≠ 0` for numbers and `≠ ""` for strings. -/
structure BookReq where
  patient_id : Option Int
  doctor_id : Option Int
  appointment_date : Option String
  appointment_time : Option String
deriving Repr, DecidableEq

def msgAllFieldsRequired : String := "All fields are required"

def msgInvalidSlot : String := "Appointment time must be in 30-minute intervals (e.g., 10:00, 10:30)"

def msgDoctorBooked : String := "Doctor is already booked at this time"

def msgBooked : String := "Appointment booked successfully!"

def msgDateTimeRequired : String := "Appointment date and time are required"

def msgAnotherAppointment : String := "Another appointment already exists at this time"

def msgNotFound : String := "Appointment not found"

def msgUpdated : String := "Appointment updated successfully"

def msgDeleted : String := "Appointment deleted successfully"

def msgServerError : String := "Server error"

/-- The availability SELECT of POST /book-appointment (src/app.js lines
158-161): is some row present with this doctor, date and time? -/
def slotTaken (rows : List Row) (did : Int) (date time : String) : Bool :=
  rows.any fun r =>
    r.doctor_id == did && r.appointment_date == date && r.appointment_time == time

/-- src/app.js lines 144-187, POST /book-appointment.  Field presence is tested
by JavaScript truthiness (`!patient_id || ...`), then the time-slot validator
runs, then the availability SELECT; on a free slot the INSERT appends a row
with status `Scheduled` and the fresh `appointment_id`, answered 201. -/
def bookAppointment (req : BookReq) (s : Store) : (Nat × String) × Store :=
  match req.patient_id, req.doctor_id, req.appointment_date, req.appointment_time with
  | some pid, some did, some date, some time =>
    if pid == 0 || did == 0 || date == "" || time == "" then
      ((400, msgAllFieldsRequired), s)
    else if !isValidTimeSlot time then
      ((400, msgInvalidSlot), s)
    else if slotTaken s.rows did date time then
      ((400, msgDoctorBooked), s)
    else
      ((201, msgBooked),
        { rows := s.rows ++ [⟨s.nextId, pid, did, date, time, "Scheduled"⟩],
          nextId := s.nextId + 1 })
  | _, _, _, _ => ((400, msgAllFieldsRequired), s)

/-- The `status || 'Scheduled'` default of the UPDATE (src/app.js line 126):
an absent or empty (falsy) status becomes `Scheduled`. -/
def statusOrScheduled (status? : Option String) : String :=
  match status? with
  | some st => if st == "" then "Scheduled" else st
  | none => "Scheduled"

/-- The row rewrite performed by the UPDATE statement (src/app.js lines
120-124): every row whose `appointment_id` matches gets the new date, time and
status; every other row is untouched. -/
def updRow (aid : Nat) (date time st : String) (r : Row) : Row :=
  if r.appointment_id == aid then
    { r with appointment_date := date, appointment_time := time, status := st }
  else r

/-- The UPDATE statement plus the `affectedRows` test (src/app.js lines
120-137).  mysql2 connects with the FOUND_ROWS flag, so `affectedRows` counts
the matched rows: zero matches answers 404 and the table is unchanged,
otherwise the matched rows are rewritten and the route answers 200. -/
def applyUpdate (aid : Nat) (date time st : String) (s : Store) : (Nat × String) × Store :=
  if s.rows.any (fun r => r.appointment_id == aid) then
    ((200, msgUpdated), { s with rows := s.rows.map (updRow aid date time st) })
  else
    ((404, msgNotFound), s)

/-- src/app.js lines 88-139, PUT /appointments/:appointment_id.  Date and time
presence is tested by truthiness, the time-slot validator runs, then the
conflict SELECT compares against the doctor resolved by the subquery
`SELECT doctor_id FROM Appointment WHERE appointment_id = ?`: an empty subquery
yields NULL, which the equality never matches; a multi-row subquery is a MySQL
error surfaced as 500; a singleton gives that doctor, and a conflicting row at
the new date/time with a different `appointment_id` answers 400.  Otherwise the
UPDATE runs (`applyUpdate`). -/
def updateAppointment (aid : Nat) (date? time? status? : Option String) (s : Store) :
    (Nat × String) × Store :=
  match date?, time? with
  | some date, some time =>
    if date == "" || time == "" then ((400, msgDateTimeRequired), s)
    else if !isValidTimeSlot time then ((400, msgInvalidSlot), s)
    else
      match s.rows.filter (fun r => r.appointment_id == aid) with
      | [] => applyUpdate aid date time (statusOrScheduled status?) s
      | [r] =>
        if s.rows.any (fun b =>
            b.doctor_id == r.doctor_id && b.appointment_date == date &&
            b.appointment_time == time && !(b.appointment_id == aid)) then
          ((400, msgAnotherAppointment), s)
        else applyUpdate aid date time (statusOrScheduled status?) s
      | _ => ((500, msgServerError), s)
  | _, _ => ((400, msgDateTimeRequired), s)

/-- src/app.js lines 190-209, DELETE /appointments/:appointment_id.  The DELETE
removes every row with the given id; `affectedRows = 0` answers 404, otherwise
200. -/
def deleteAppointment (aid : Nat) (s : Store) : (Nat × String) × Store :=
  if s.rows.any (fun r => r.appointment_id == aid) then
    ((200, msgDeleted), { s with rows := s.rows.filter fun r => !(r.appointment_id == aid) })
  else
    ((404, msgNotFound), s)

/-- One entry of the fixed seed list (src/app.js lines 213-267). -/
structure SeedTuple where
  patient_id : Int
  doctor_id : Int
  appointment_date : String
  appointment_time : String
deriving Repr, DecidableEq

/-- The 45 fixed tuples of `insertDefaultAppointments`, src/app.js lines
213-267, in source order. -/
def defaultAppointments : List SeedTuple := [
  ⟨1, 1, "2025-04-11", "09:00"⟩, ⟨2, 1, "2025-04-11", "09:30"⟩,
  ⟨3, 1, "2025-04-11", "10:00"⟩, ⟨4, 1, "2025-04-11", "10:30"⟩,
  ⟨5, 1, "2025-04-11", "11:00"⟩,
  ⟨6, 2, "2025-04-11", "09:00"⟩, ⟨7, 2, "2025-04-11", "09:30"⟩,
  ⟨8, 2, "2025-04-11", "10:00"⟩, ⟨9, 2, "2025-04-11", "10:30"⟩,
  ⟨10, 2, "2025-04-11", "11:00"⟩,
  ⟨1, 3, "2025-04-12", "09:00"⟩, ⟨2, 3, "2025-04-12", "09:30"⟩,
  ⟨3, 3, "2025-04-12", "10:00"⟩, ⟨4, 3, "2025-04-12", "10:30"⟩,
  ⟨5, 3, "2025-04-12", "11:00"⟩,
  ⟨6, 4, "2025-04-13", "09:00"⟩, ⟨7, 4, "2025-04-13", "09:30"⟩,
  ⟨8, 4, "2025-04-13", "10:00"⟩, ⟨9, 4, "2025-04-13", "10:30"⟩,
  ⟨10, 4, "2025-04-13", "11:00"⟩,
  ⟨1, 5, "2025-04-14", "09:00"⟩, ⟨2, 5, "2025-04-14", "09:30"⟩,
  ⟨3, 5, "2025-04-14", "10:00"⟩, ⟨4, 5, "2025-04-14", "10:30"⟩,
  ⟨5, 5, "2025-04-14", "11:00"⟩,
  ⟨6, 1, "2025-04-15", "09:00"⟩, ⟨7, 1, "2025-04-15", "09:30"⟩,
  ⟨8, 1, "2025-04-15", "10:00"⟩, ⟨9, 1, "2025-04-15", "10:30"⟩,
  ⟨10, 1, "2025-04-15", "11:00"⟩,
  ⟨1, 2, "2025-04-16", "09:00"⟩, ⟨2, 2, "2025-04-16", "09:30"⟩,
  ⟨3, 2, "2025-04-16", "10:00"⟩, ⟨4, 2, "2025-04-16", "10:30"⟩,
  ⟨5, 2, "2025-04-16", "11:00"⟩,
  ⟨6, 3, "2025-04-17", "09:00"⟩, ⟨7, 3, "2025-04-17", "09:30"⟩,
  ⟨8, 3, "2025-04-17", "10:00"⟩, ⟨9, 3, "2025-04-17", "10:30"⟩,
  ⟨10, 3, "2025-04-17", "11:00"⟩,
  ⟨1, 4, "2025-04-18", "09:00"⟩, ⟨2, 4, "2025-04-18", "09:30"⟩,
  ⟨3, 4, "2025-04-18", "10:00"⟩, ⟨4, 4, "2025-04-18", "10:30"⟩,
  ⟨5, 4, "2025-04-18", "11:00"⟩]

/-- The seed existence check (src/app.js lines 270-273): a row with the exact
(patient_id, doctor_id, appointment_date, appointment_time) quadruple. -/
def quadExists (rows : List Row) (t : SeedTuple) : Bool :=
  rows.any fun r =>
    r.patient_id == t.patient_id && r.doctor_id == t.doctor_id &&
    r.appointment_date == t.appointment_date && r.appointment_time == t.appointment_time

/-- The row the seed INSERT creates for a tuple (src/app.js lines 279-282),
with the given auto-increment id and status `Scheduled`. -/
def seedRow (n : Nat) (t : SeedTuple) : Row :=
  ⟨n, t.patient_id, t.doctor_id, t.appointment_date, t.appointment_time, "Scheduled"⟩

/-- Append the seed row for one tuple, advancing the auto-increment counter. -/
def pushSeed (s : Store) (t : SeedTuple) : Store :=
  { rows := s.rows ++ [seedRow s.nextId t], nextId := s.nextId + 1 }

/-- src/app.js lines 212-295, `insertDefaultAppointments`.  The `forEach`
enqueues all 45 existence SELECTs on the single mysql connection before any
callback can enqueue an INSERT, so every existence check reads the state the
routine started from (`s.rows` below); the INSERTs then execute in list order.
Because the 45 tuples are pairwise distinct this agrees with a fully
sequential check-then-insert per tuple. -/
def insertDefaultAppointments (s : Store) : Store :=
  defaultAppointments.foldl
    (fun acc t => if quadExists s.rows t then acc else pushSeed acc t) s

/-- A client operation processed by the service: one HTTP request among the
three mutating routes, with arbitrary (well-typed) payload. -/
inductive Op where
  | book (req : BookReq)
  | update (aid : Nat) (date? time? status? : Option String)
  | del (aid : Nat)
deriving Repr, DecidableEq

/-- The state transition of one request (the response is discarded). -/
def applyOp (s : Store) (op : Op) : Store :=
  match op with
  | .book req => (bookAppointment req s).2
  | .update aid date? time? status? => (updateAppointment aid date? time? status? s).2
  | .del aid => (deleteAppointment aid s).2

/-- The store after seeding the empty store and sequentially processing the
given requests: the reachable states of the service. -/
def runOps (ops : List Op) : Store :=
  ops.foldl applyOp (insertDefaultAppointments Store.empty)

/-- Two rows claim the same slot: equal doctor, date and time. -/
def tripleClash (a b : Row) : Prop :=
  a.doctor_id = b.doctor_id ∧ a.appointment_date = b.appointment_date ∧
    a.appointment_time = b.appointment_time

instance (a b : Row) : Decidable (tripleClash a b) := by
  unfold tripleClash; infer_instance

/-- The documented invariant: no two rows of the table share the
(doctor_id, appointment_date, appointment_time) triple. -/
def TriplesDistinct (rows : List Row) : Prop :=
  rows.Pairwise fun a b => ¬ tripleClash a b

instance (rows : List Row) : Decidable (TriplesDistinct rows) := by
  unfold TriplesDistinct; exact List.instDecidablePairwise rows

/-- Well-formedness of the store key column: the `appointment_id`s are distinct
and below the auto-increment counter, as the database guarantees for a
generated key. -/
def IdsOk (s : Store) : Prop :=
  (s.rows.map Row.appointment_id).Nodup ∧ ∀ r ∈ s.rows, r.appointment_id < s.nextId

instance (s : Store) : Decidable (IdsOk s) := by
  unfold IdsOk; infer_instance

/-- The inductive invariant carried through every operation. -/
def StoreInv (s : Store) : Prop := IdsOk s ∧ TriplesDistinct s.rows

instance (s : Store) : Decidable (StoreInv s) := by
  unfold StoreInv; infer_instance

/-! ### Basic facts about the embedded operations -/

/-- `updRow` never changes the key column. -/
theorem updRow_appointment_id (aid : Nat) (date time st : String) (r : Row) :
    (updRow aid date time st r).appointment_id = r.appointment_id := by
  unfold updRow; split <;> rfl

/-- `tripleClash` is reflexive. -/
theorem tripleClash_refl (r : Row) : tripleClash r r := ⟨rfl, rfl, rfl⟩

/-- `tripleClash` is symmetric. -/
theorem tripleClash_symm {a b : Row} (h : tripleClash a b) : tripleClash b a :=
  ⟨h.1.symm, h.2.1.symm, h.2.2.symm⟩

/-- Unfolding of the booking availability check. -/
theorem slotTaken_eq_true_iff (rows : List Row) (did : Int) (date time : String) :
    slotTaken rows did date time = true ↔
      ∃ r ∈ rows, r.doctor_id = did ∧ r.appointment_date = date ∧ r.appointment_time = time := by
  simp [slotTaken, List.any_eq_true, and_assoc]

/-- In a table with distinct keys, filtering on the key of a member `A` keeps
exactly `A`. -/
theorem filter_key_singleton (rows : List Row) (A : Row) (hA : A ∈ rows)
    (h : (rows.map Row.appointment_id).Nodup) :
    rows.filter (fun r => r.appointment_id == A.appointment_id) = [A] := by
  induction rows with
  | nil => cases hA
  | cons hd tl ih =>
    simp only [List.map_cons, List.nodup_cons, List.mem_map] at h
    obtain ⟨hhd, htl⟩ := h
    rcases List.mem_cons.mp hA with rfl | hmem
    · have : tl.filter (fun r => r.appointment_id == A.appointment_id) = [] := by
        rw [List.filter_eq_nil_iff]
        intro r hr
        simp only [beq_iff_eq]
        intro hid
        exact hhd ⟨r, hr, hid⟩
      simp [List.filter_cons, this]
    · have hne : ¬ hd.appointment_id = A.appointment_id := by
        intro hid
        exact hhd ⟨A, hmem, hid.symm⟩
      simp [List.filter_cons, hne, ih hmem htl]

/-- Members of a singleton filter result. -/
theorem mem_of_filter_key (rows : List Row) (A : Row) (aid : Nat)
    (hfil : rows.filter (fun r => r.appointment_id == aid) = [A]) :
    A ∈ rows ∧ A.appointment_id = aid := by
  have : A ∈ rows.filter (fun r => r.appointment_id == aid) := by rw [hfil]; exact List.mem_singleton_self A
  have h := List.mem_filter.mp this
  exact ⟨h.1, by simpa [beq_iff_eq] using h.2⟩

/-- Any member of the table passing the singleton key filter is the singleton. -/
theorem eq_of_filter_key (rows : List Row) (A x : Row) (aid : Nat)
    (hfil : rows.filter (fun r => r.appointment_id == aid) = [A])
    (hx : x ∈ rows) (hxid : x.appointment_id = aid) : x = A := by
  have : x ∈ rows.filter (fun r => r.appointment_id == aid) :=
    List.mem_filter.mpr ⟨hx, by simp [beq_iff_eq, hxid]⟩
  rw [hfil] at this
  exact List.mem_singleton.mp this

/-! ### Preservation of the store invariant -/

/-- Booking preserves key well-formedness and slot distinctness. -/
theorem storeInv_book (req : BookReq) (s : Store) (h : StoreInv s) :
    StoreInv (bookAppointment req s).2 := by
  obtain ⟨⟨hnodup, hbound⟩, htrip⟩ := h
  rcases req with ⟨pid?, did?, date?, time?⟩
  rcases pid? with _ | pid <;> rcases did? with _ | did <;>
    rcases date? with _ | date <;> rcases time? with _ | time <;>
    simp only [bookAppointment] <;>
    try exact ⟨⟨hnodup, hbound⟩, htrip⟩
  split_ifs with h1 h2 h3
  · exact ⟨⟨hnodup, hbound⟩, htrip⟩
  · exact ⟨⟨hnodup, hbound⟩, htrip⟩
  · exact ⟨⟨hnodup, hbound⟩, htrip⟩
  · have hfree : slotTaken s.rows did date time = false := by
      revert h3; cases slotTaken s.rows did date time <;> simp
    refine ⟨⟨?_, ?_⟩, ?_⟩
    · simp only [List.map_append, List.map_cons, List.map_nil]
      rw [List.nodup_append]
      refine ⟨hnodup, List.nodup_singleton _, ?_⟩
      intro a ha hb
      simp only [List.mem_singleton] at hb
      subst hb
      obtain ⟨r, hr, hid⟩ := List.mem_map.mp ha
      exact absurd (hid ▸ hbound r hr) (Nat.lt_irrefl _)
    · intro r hr
      rcases List.mem_append.mp hr with hl | hr1
      · exact Nat.lt_trans (hbound r hl) (Nat.lt_succ_self _)
      · simp only [List.mem_singleton] at hr1
        subst hr1
        exact Nat.lt_succ_self _
    · rw [TriplesDistinct, List.pairwise_append]
      refine ⟨htrip, List.pairwise_singleton _ _, ?_⟩
      intro a ha b hb
      simp only [List.mem_singleton] at hb
      subst hb
      intro hclash
      obtain ⟨hd, hdt, ht⟩ := hclash
      have : slotTaken s.rows did date time = true :=
        (slotTaken_eq_true_iff s.rows did date time).mpr ⟨a, ha, hd, hdt, ht⟩
      rw [hfree] at this
      cases this

/-- Deletion preserves key well-formedness and slot distinctness. -/
theorem storeInv_delete (aid : Nat) (s : Store) (h : StoreInv s) :
    StoreInv (deleteAppointment aid s).2 := by
  obtain ⟨⟨hnodup, hbound⟩, htrip⟩ := h
  unfold deleteAppointment
  split_ifs
  · refine ⟨⟨?_, ?_⟩, ?_⟩
    · exact List.Nodup.sublist (List.Sublist.map _ (List.filter_sublist _)) hnodup
    · intro r hr
      exact hbound r (List.mem_of_mem_filter hr)
    · exact List.Pairwise.sublist (List.filter_sublist _) htrip
  · exact ⟨⟨hnodup, hbound⟩, htrip⟩

/-- The UPDATE statement itself preserves key well-formedness; slot
distinctness is preserved whenever no row other than the matched ones clashes
with the written (date, time) for its own doctor.  Stated for the exact
situation `updateAppointment` reaches it in. -/
theorem storeInv_applyUpdate (aid : Nat) (date time st : String) (s : Store) (A : Row)
    (hfil : s.rows.filter (fun r => r.appointment_id == aid) = [A])
    (hnoc : ∀ b ∈ s.rows, ¬(b.doctor_id = A.doctor_id ∧ b.appointment_date = date ∧
        b.appointment_time = time ∧ b.appointment_id ≠ aid))
    (h : StoreInv s) :
    StoreInv (applyUpdate aid date time st s).2 := by
  obtain ⟨⟨hnodup, hbound⟩, htrip⟩ := h
  unfold applyUpdate
  split_ifs
  · have hids : (s.rows.map (updRow aid date time st)).map Row.appointment_id =
        s.rows.map Row.appointment_id := by
      rw [List.map_map]
      exact List.map_congr_left fun r _ => updRow_appointment_id aid date time st r
    refine ⟨⟨by rw [hids]; exact hnodup, ?_⟩, ?_⟩
    · intro r hr
      obtain ⟨a, ha, rfl⟩ := List.mem_map.mp hr
      rw [updRow_appointment_id]
      exact hbound a ha
    · rw [TriplesDistinct, List.pairwise_map]
      refine List.Pairwise.imp_of_mem ?_ htrip
      intro a b ha hb hab hclash
      by_cases haid : a.appointment_id = aid <;> by_cases hbid : b.appointment_id = aid
      · have ha' : a = A := eq_of_filter_key s.rows A a aid hfil ha haid
        have hb' : b = A := eq_of_filter_key s.rows A b aid hfil hb hbid
        rw [ha', hb'] at hab
        exact hab (tripleClash_refl A)
      · have ha' : a = A := eq_of_filter_key s.rows A a aid hfil ha haid
        rw [updRow, if_pos (by simp [beq_iff_eq, haid]), updRow,
          if_neg (by simp [beq_iff_eq, hbid])] at hclash
        obtain ⟨hd, hdt, ht⟩ := hclash
        exact hnoc b hb ⟨by rw [← ha']; exact hd.symm, hdt.symm, ht.symm, hbid⟩
      · have hb' : b = A := eq_of_filter_key s.rows A b aid hfil hb hbid
        rw [updRow, if_neg (by simp [beq_iff_eq, haid]), updRow,
          if_pos (by simp [beq_iff_eq, hbid])] at hclash
        obtain ⟨hd, hdt, ht⟩ := hclash
        exact hnoc a ha ⟨by rw [← hb']; exact hd, hdt, ht, haid⟩
      · rw [updRow, if_neg (by simp [beq_iff_eq, haid]), updRow,
          if_neg (by simp [beq_iff_eq, hbid])] at hclash
        exact hab hclash
  · exact ⟨⟨hnodup, hbound⟩, htrip⟩

/-- Updating preserves key well-formedness and slot distinctness. -/
theorem storeInv_update (aid : Nat) (date? time? status? : Option String) (s : Store)
    (h : StoreInv s) :
    StoreInv (updateAppointment aid date? time? status? s).2 := by
  rcases date? with _ | date <;> rcases time? with _ | time <;>
    simp only [updateAppointment] <;> try exact h
  split_ifs with h1 h2
  · exact h
  · exact h
  rcases hfil : s.rows.filter (fun r => r.appointment_id == aid) with _ | ⟨A, _ | ⟨B, rest⟩⟩
  · rw [hfil]
    show StoreInv (applyUpdate aid date time (statusOrScheduled status?) s).2
    unfold applyUpdate
    split_ifs with hany
    · exfalso
      obtain ⟨r, hr, hrid⟩ := List.any_eq_true.mp hany
      have : r ∈ s.rows.filter (fun r => r.appointment_id == aid) :=
        List.mem_filter.mpr ⟨hr, hrid⟩
      rw [hfil] at this
      cases this
    · exact h
  · rw [hfil]
    show StoreInv ((if (s.rows.any fun b =>
        b.doctor_id == A.doctor_id && b.appointment_date == date &&
        b.appointment_time == time && !(b.appointment_id == aid)) = true then
          ((400, msgAnotherAppointment), s)
        else applyUpdate aid date time (statusOrScheduled status?) s)).2
    split_ifs with hconf
    · exact h
    · have hnoc : ∀ b ∈ s.rows, ¬(b.doctor_id = A.doctor_id ∧ b.appointment_date = date ∧
          b.appointment_time = time ∧ b.appointment_id ≠ aid) := by
        rintro b hb ⟨hd, hdt, ht, hbid⟩
        apply hconf
        apply List.any_eq_true.mpr
        exact ⟨b, hb, by simp [beq_iff_eq, hd, hdt, ht, hbid]⟩
      exact storeInv_applyUpdate aid date time (statusOrScheduled status?) s A hfil hnoc h
  · rw [hfil]
    exact h

/-- One processed request preserves the invariant. -/
theorem storeInv_applyOp (s : Store) (op : Op) (h : StoreInv s) : StoreInv (applyOp s op) := by
  cases op with
  | book req => exact storeInv_book req s h
  | update aid date? time? status? => exact storeInv_update aid date? time? status? s h
  | del aid => exact storeInv_delete aid s h

/-- Any sequence of processed requests preserves the invariant. -/
theorem storeInv_foldl (ops : List Op) :
    ∀ s : Store, StoreInv s → StoreInv (ops.foldl applyOp s) := by
  induction ops with
  | nil => intro s h; exact h
  | cons op rest ih => intro s h; exact ih (applyOp s op) (storeInv_applyOp s op h)

set_option maxRecDepth 10000 in
/-- The freshly seeded store satisfies the invariant. -/
theorem storeInv_seed_empty : StoreInv (insertDefaultAppointments Store.empty) := by decide

/-- C1: for every reachable state of the appointment store — the empty store
seeded by `insertDefaultAppointments` followed by any sequence of book, update
and delete requests processed sequentially — no two rows share the
(doctor_id, appointment_date, appointment_time) triple; in particular the rows
produced by the seeding itself (whose existence check uses the patient/doctor/
date/time quadruple) already have pairwise distinct doctor/date/time
triples. -/
theorem reachable_triples_distinct :
    (∀ ops : List Op, TriplesDistinct (runOps ops).rows) ∧
      TriplesDistinct (insertDefaultAppointments Store.empty).rows :=
  ⟨fun ops => (storeInv_foldl ops (insertDefaultAppointments Store.empty) storeInv_seed_empty).2,
   storeInv_seed_empty.2⟩

/-! ### Booking -/

/-- C2 counterexample: in a state where the requested doctor/date/time slot is
already occupied, submitting the same valid booking request twice yields two
400 SlotTaken responses and no 201, contradicting the claim that every state
gives exactly one 201 and one 400. -/
theorem book_twice_taken_slot_no_success :
    (bookAppointment ⟨some 2, some 1, some "2025-04-11", some "09:00"⟩
        ⟨[⟨0, 1, 1, "2025-04-11", "09:00", "Scheduled"⟩], 1⟩).1 = (400, msgDoctorBooked) ∧
    (bookAppointment ⟨some 2, some 1, some "2025-04-11", some "09:00"⟩
        (bookAppointment ⟨some 2, some 1, some "2025-04-11", some "09:00"⟩
          ⟨[⟨0, 1, 1, "2025-04-11", "09:00", "Scheduled"⟩], 1⟩).2).1 = (400, msgDoctorBooked) := by
  decide

/-- C2 (amended): for every state in which no row already holds the requested
doctor/date/time slot, and every valid booking request (all four fields
present and truthy, time accepted by the 30-minute validator), submitting the
same slot twice in sequence yields first a 201 that appends exactly one row
with status `Scheduled`, then a 400 SlotTaken that leaves the store
unchanged. -/
theorem book_twice_free_slot (s : Store) (pid did : Int) (date time : String)
    (hpid : pid ≠ 0) (hdid : did ≠ 0) (hdate : date ≠ "") (htime : time ≠ "")
    (hvalid : isValidTimeSlot time = true)
    (hfree : slotTaken s.rows did date time = false) :
    bookAppointment ⟨some pid, some did, some date, some time⟩ s =
      ((201, msgBooked),
        { rows := s.rows ++ [⟨s.nextId, pid, did, date, time, "Scheduled"⟩],
          nextId := s.nextId + 1 }) ∧
    bookAppointment ⟨some pid, some did, some date, some time⟩
        { rows := s.rows ++ [⟨s.nextId, pid, did, date, time, "Scheduled"⟩],
          nextId := s.nextId + 1 } =
      ((400, msgDoctorBooked),
        { rows := s.rows ++ [⟨s.nextId, pid, did, date, time, "Scheduled"⟩],
          nextId := s.nextId + 1 }) := by
  constructor
  · simp [bookAppointment, beq_iff_eq, hpid, hdid, hdate, htime, hvalid, hfree]
  · have htaken : slotTaken (s.rows ++ [⟨s.nextId, pid, did, date, time, "Scheduled"⟩])
        did date time = true := by
      apply (slotTaken_eq_true_iff _ _ _ _).mpr
      exact ⟨⟨s.nextId, pid, did, date, time, "Scheduled"⟩, by simp, rfl, rfl, rfl⟩
    simp [bookAppointment, beq_iff_eq, hpid, hdid, hdate, htime, hvalid, htaken]

/-- C2 witness: the amended theorem applied to the empty store and the seed
slot (1, 1, 2025-04-11, 09:00). -/
theorem book_twice_free_slot_witness :
    bookAppointment ⟨some 1, some 1, some "2025-04-11", some "09:00"⟩ Store.empty =
      ((201, msgBooked), ⟨[⟨0, 1, 1, "2025-04-11", "09:00", "Scheduled"⟩], 1⟩) ∧
    bookAppointment ⟨some 1, some 1, some "2025-04-11", some "09:00"⟩
        ⟨[⟨0, 1, 1, "2025-04-11", "09:00", "Scheduled"⟩], 1⟩ =
      ((400, msgDoctorBooked), ⟨[⟨0, 1, 1, "2025-04-11", "09:00", "Scheduled"⟩], 1⟩) :=
  book_twice_free_slot Store.empty 1 1 "2025-04-11" "09:00"
    (by decide) (by decide) (by decide) (by decide) (by decide) (by decide)

/-- C3: for every state and every booking request whose four fields are present
and truthy but whose time the 30-minute validator rejects, booking answers 400
with the InvalidTimeSlot message and the store is unchanged. -/
theorem book_invalid_slot_rejected (s : Store) (pid did : Int) (date time : String)
    (hpid : pid ≠ 0) (hdid : did ≠ 0) (hdate : date ≠ "") (htime : time ≠ "")
    (hbad : isValidTimeSlot time = false) :
    bookAppointment ⟨some pid, some did, some date, some time⟩ s =
      ((400, msgInvalidSlot), s) := by
  simp [bookAppointment, beq_iff_eq, hpid, hdid, hdate, htime, hbad]

/-- C3 witness: booking at 09:15 on the empty store is rejected as an invalid
slot. -/
theorem book_invalid_slot_rejected_witness :
    bookAppointment ⟨some 1, some 1, some "2025-04-11", some "09:15"⟩ Store.empty =
      ((400, msgInvalidSlot), Store.empty) :=
  book_invalid_slot_rejected Store.empty 1 1 "2025-04-11" "09:15"
    (by decide) (by decide) (by decide) (by decide) (by decide)

/-- C8: starting from the empty store, after the seed routine completes, the
booking request (patient 1, doctor 1, 2025-04-11, 09:00) answers 400 with the
message `Doctor is already booked at this time` and the store is unchanged,
because the seed inserted a row occupying that doctor/date/time slot. -/
theorem book_after_seed_taken :
    bookAppointment ⟨some 1, some 1, some "2025-04-11", some "09:00"⟩
        (insertDefaultAppointments Store.empty) =
      ((400, msgDoctorBooked), insertDefaultAppointments Store.empty) := by
  decide

/-- C10: the required-field checks of booking test JavaScript falsiness, not
presence: a request whose patient_id or doctor_id is the number 0, or whose
date or time is the empty string, is rejected with 400
`All fields are required` and no row is inserted, exactly as when the field is
absent (second conjunct: a zero patient_id behaves identically to an absent
one). -/
theorem book_falsy_fields_rejected (s : Store) (req : BookReq)
    (h : req.patient_id = some 0 ∨ req.doctor_id = some 0 ∨
      req.appointment_date = some "" ∨ req.appointment_time = some "") :
    bookAppointment req s = ((400, msgAllFieldsRequired), s) ∧
    bookAppointment { req with patient_id := some 0 } s =
      bookAppointment { req with patient_id := none } s := by
  rcases req with ⟨pid?, did?, date?, time?⟩
  constructor
  · rcases pid? with _ | pid <;> rcases did? with _ | did <;>
      rcases date? with _ | date <;> rcases time? with _ | time <;>
      rcases h with h | h | h | h <;> simp_all [bookAppointment]
  · rcases did? with _ | did <;> rcases date? with _ | date <;>
      rcases time? with _ | time <;> simp [bookAppointment]

/-- C10 witness: a booking request with patient_id 0 on the empty store. -/
theorem book_falsy_fields_rejected_witness :
    bookAppointment ⟨some 0, some 1, some "2025-04-11", some "09:00"⟩ Store.empty =
      ((400, msgAllFieldsRequired), Store.empty) ∧
    bookAppointment ⟨some 0, some 1, some "2025-04-11", some "09:00"⟩ Store.empty =
      bookAppointment ⟨none, some 1, some "2025-04-11", some "09:00"⟩ Store.empty :=
  book_falsy_fields_rejected Store.empty ⟨some 0, some 1, some "2025-04-11", some "09:00"⟩
    (Or.inl rfl)

/-! ### Updating -/

/-- C4: in any state whose keys are distinct and which satisfies the
no-double-booking invariant (both hold in every reachable state), updating an
appointment A to a (date, time) slot already held by a different appointment B
of the same doctor answers 400 SlotTaken and leaves the store unchanged, while
updating A to its own current slot answers 200: the conflict check excludes
the edited appointment by its id, and the doctor is resolved from appointment
A itself. -/
theorem update_conflict_and_self_slot (s : Store) (A : Row) (hA : A ∈ s.rows)
    (hids : (s.rows.map Row.appointment_id).Nodup)
    (htrip : TriplesDistinct s.rows) :
    (∀ (B : Row) (status? : Option String), B ∈ s.rows →
      B.appointment_id ≠ A.appointment_id → B.doctor_id = A.doctor_id →
      B.appointment_date ≠ "" → B.appointment_time ≠ "" →
      isValidTimeSlot B.appointment_time = true →
      updateAppointment A.appointment_id (some B.appointment_date)
          (some B.appointment_time) status? s = ((400, msgAnotherAppointment), s)) ∧
    (∀ status? : Option String, A.appointment_date ≠ "" → A.appointment_time ≠ "" →
      isValidTimeSlot A.appointment_time = true →
      (updateAppointment A.appointment_id (some A.appointment_date)
          (some A.appointment_time) status? s).1.1 = 200) := by
  constructor
  · intro B status? hB hBneA hdoc hd ht hvalid
    have hany : (s.rows.any fun b =>
        b.doctor_id == A.doctor_id && b.appointment_date == B.appointment_date &&
        b.appointment_time == B.appointment_time &&
        !(b.appointment_id == A.appointment_id)) = true := by
      apply List.any_eq_true.mpr
      exact ⟨B, hB, by simp [beq_iff_eq, hdoc, hBneA]⟩
    simp [updateAppointment, beq_iff_eq, hd, ht, hvalid,
      filter_key_singleton s.rows A hA hids, hany]
  · intro status? hd ht hvalid
    have hany : (s.rows.any fun b =>
        b.doctor_id == A.doctor_id && b.appointment_date == A.appointment_date &&
        b.appointment_time == A.appointment_time &&
        !(b.appointment_id == A.appointment_id)) = false := by
      apply List.any_eq_false.mpr
      intro b hb hcond
      simp only [Bool.and_eq_true, beq_iff_eq, Bool.not_eq_true', beq_eq_false_iff_ne] at hcond
      obtain ⟨⟨⟨hdoc, hdt⟩, htm⟩, hbid⟩ := hcond
      have hbneA : b ≠ A := fun h => hbid (by rw [h])
      have hsym : Symmetric (fun a b : Row => ¬ tripleClash a b) :=
        fun x y hxy hc => hxy (tripleClash_symm hc)
      exact (htrip.forall hsym hb hA hbneA) ⟨hdoc, hdt, htm⟩
    have hmem : (s.rows.any fun r => r.appointment_id == A.appointment_id) = true :=
      List.any_eq_true.mpr ⟨A, hA, by simp⟩
    simp [updateAppointment, beq_iff_eq, hd, ht, hvalid,
      filter_key_singleton s.rows A hA hids, hany, applyUpdate, hmem]

/-- C4 witness: doctor 1 holds 09:00 (id 0) and 09:30 (id 1) on 2025-04-11;
moving id 0 onto 09:30 is refused with 400 and the store is unchanged, while
re-submitting its own 09:00 slot answers 200. -/
theorem update_conflict_and_self_slot_witness :
    updateAppointment 0 (some "2025-04-11") (some "09:30") none
        ⟨[⟨0, 1, 1, "2025-04-11", "09:00", "Scheduled"⟩,
          ⟨1, 2, 1, "2025-04-11", "09:30", "Scheduled"⟩], 2⟩ =
      ((400, msgAnotherAppointment),
        ⟨[⟨0, 1, 1, "2025-04-11", "09:00", "Scheduled"⟩,
          ⟨1, 2, 1, "2025-04-11", "09:30", "Scheduled"⟩], 2⟩) ∧
    (updateAppointment 0 (some "2025-04-11") (some "09:00") none
        ⟨[⟨0, 1, 1, "2025-04-11", "09:00", "Scheduled"⟩,
          ⟨1, 2, 1, "2025-04-11", "09:30", "Scheduled"⟩], 2⟩).1.1 = 200 :=
  ⟨(update_conflict_and_self_slot
      ⟨[⟨0, 1, 1, "2025-04-11", "09:00", "Scheduled"⟩,
        ⟨1, 2, 1, "2025-04-11", "09:30", "Scheduled"⟩], 2⟩
      ⟨0, 1, 1, "2025-04-11", "09:00", "Scheduled"⟩
      (by decide) (by decide) (by decide)).1
      ⟨1, 2, 1, "2025-04-11", "09:30", "Scheduled"⟩ none
      (by decide) (by decide) (by decide) (by decide) (by decide) (by decide),
   (update_conflict_and_self_slot
      ⟨[⟨0, 1, 1, "2025-04-11", "09:00", "Scheduled"⟩,
        ⟨1, 2, 1, "2025-04-11", "09:30", "Scheduled"⟩], 2⟩
      ⟨0, 1, 1, "2025-04-11", "09:00", "Scheduled"⟩
      (by decide) (by decide) (by decide)).2 none
      (by decide) (by decide) (by decide)⟩

/-- C5 counterexample: with doctor 1 holding 09:00 (id 0) and 09:30 (id 1) on
2025-04-11, the update of id 0 to the valid slot 09:30 matches a row, yet the
route answers 400 (slot conflict) instead of the claimed 200, and the store is
unchanged. -/
theorem update_matched_row_but_conflict :
    (∃ r ∈ ([⟨0, 1, 1, "2025-04-11", "09:00", "Scheduled"⟩,
             ⟨1, 2, 1, "2025-04-11", "09:30", "Scheduled"⟩] : List Row),
        r.appointment_id = 0) ∧
    isValidTimeSlot "09:30" = true ∧
    updateAppointment 0 (some "2025-04-11") (some "09:30") none
        ⟨[⟨0, 1, 1, "2025-04-11", "09:00", "Scheduled"⟩,
          ⟨1, 2, 1, "2025-04-11", "09:30", "Scheduled"⟩], 2⟩ =
      ((400, msgAnotherAppointment),
        ⟨[⟨0, 1, 1, "2025-04-11", "09:00", "Scheduled"⟩,
          ⟨1, 2, 1, "2025-04-11", "09:30", "Scheduled"⟩], 2⟩) := by
  decide

/-- C5 (amended): for every state and every update request with date and time
present (truthy) and accepted by the 30-minute validator: if no row has the
given appointment_id the route answers 404 NotFound and the store is
unchanged; if a row matches and no different appointment of the same doctor
already holds the new (date, time) slot, the route rewrites that row with the
new date, time and status (defaulting to `Scheduled` when the status field is
absent or empty), answers 200, and leaves every other row unchanged. -/
theorem update_notfound_or_apply (s : Store) (aid : Nat) (date time : String)
    (status? : Option String) (hdate : date ≠ "") (htime : time ≠ "")
    (hvalid : isValidTimeSlot time = true) :
    ((∀ r ∈ s.rows, r.appointment_id ≠ aid) →
      updateAppointment aid (some date) (some time) status? s = ((404, msgNotFound), s)) ∧
    (∀ A, A ∈ s.rows → A.appointment_id = aid →
      (s.rows.map Row.appointment_id).Nodup →
      (∀ b ∈ s.rows, b.appointment_id ≠ aid →
        ¬(b.doctor_id = A.doctor_id ∧ b.appointment_date = date ∧
          b.appointment_time = time)) →
      updateAppointment aid (some date) (some time) status? s =
        ((200, msgUpdated),
          { s with rows := s.rows.map (updRow aid date time (statusOrScheduled status?)) }) ∧
      ∀ r, r.appointment_id ≠ aid →
        updRow aid date time (statusOrScheduled status?) r = r) := by
  constructor
  · intro hnone
    have hfil : s.rows.filter (fun r => r.appointment_id == aid) = [] := by
      rw [List.filter_eq_nil_iff]
      intro r hr
      simp [beq_iff_eq, hnone r hr]
    have hany : (s.rows.any fun r => r.appointment_id == aid) = false := by
      apply List.any_eq_false.mpr
      intro r hr
      simp [beq_iff_eq, hnone r hr]
    simp [updateAppointment, beq_iff_eq, hdate, htime, hvalid, hfil, applyUpdate, hany]
  · intro A hA hAid hids hnoc
    have hfil : s.rows.filter (fun r => r.appointment_id == aid) = [A] := by
      rw [← hAid]
      exact filter_key_singleton s.rows A hA hids
    have hany : (s.rows.any fun b =>
        b.doctor_id == A.doctor_id && b.appointment_date == date &&
        b.appointment_time == time && !(b.appointment_id == aid)) = false := by
      apply List.any_eq_false.mpr
      intro b hb hcond
      simp only [Bool.and_eq_true, beq_iff_eq, Bool.not_eq_true', beq_eq_false_iff_ne] at hcond
      obtain ⟨⟨⟨hdoc, hdt⟩, htm⟩, hbid⟩ := hcond
      exact hnoc b hb hbid ⟨hdoc, hdt, htm⟩
    have hmem : (s.rows.any fun r => r.appointment_id == aid) = true :=
      List.any_eq_true.mpr ⟨A, hA, by simp [beq_iff_eq, hAid]⟩
    refine ⟨?_, ?_⟩
    · simp [updateAppointment, beq_iff_eq, hdate, htime, hvalid, hfil, hany,
        applyUpdate, hmem]
    · intro r hr
      simp [updRow, beq_iff_eq, hr]

/-- C5 witness: on a one-row store, updating a missing id answers 404, and
updating the present id 0 to the free slot 10:00 answers 200 and rewrites the
row. -/
theorem update_notfound_or_apply_witness :
    updateAppointment 7 (some "2025-04-11") (some "10:00") none
        ⟨[⟨0, 1, 1, "2025-04-11", "09:00", "Scheduled"⟩], 1⟩ =
      ((404, msgNotFound), ⟨[⟨0, 1, 1, "2025-04-11", "09:00", "Scheduled"⟩], 1⟩) ∧
    updateAppointment 0 (some "2025-04-11") (some "10:00") none
        ⟨[⟨0, 1, 1, "2025-04-11", "09:00", "Scheduled"⟩], 1⟩ =
      ((200, msgUpdated),
        ⟨[⟨0, 1, 1, "2025-04-11", "10:00", "Scheduled"⟩], 1⟩) :=
  ⟨(update_notfound_or_apply ⟨[⟨0, 1, 1, "2025-04-11", "09:00", "Scheduled"⟩], 1⟩
      7 "2025-04-11" "10:00" none (by decide) (by decide) (by decide)).1 (by decide),
   ((update_notfound_or_apply ⟨[⟨0, 1, 1, "2025-04-11", "09:00", "Scheduled"⟩], 1⟩
      0 "2025-04-11" "10:00" none (by decide) (by decide) (by decide)).2
      ⟨0, 1, 1, "2025-04-11", "09:00", "Scheduled"⟩
      (by decide) (by decide) (by decide) (by decide)).1⟩

/-! ### Deleting -/

/-- In a table with distinct keys, the rows surviving the DELETE of the key of
a member `A` are exactly the table with `A` removed. -/
theorem filter_ne_key_eq_erase (rows : List Row) (A : Row) (hA : A ∈ rows)
    (hids : (rows.map Row.appointment_id).Nodup) :
    rows.filter (fun r => !(r.appointment_id == A.appointment_id)) = rows.erase A := by
  induction rows with
  | nil => cases hA
  | cons hd tl ih =>
    simp only [List.map_cons, List.nodup_cons, List.mem_map] at hids
    obtain ⟨hhd, htl⟩ := hids
    rcases List.mem_cons.mp hA with rfl | hmem
    · rw [List.erase_cons_head, List.filter_cons]
      simp only [beq_self_eq_true, Bool.not_true, if_neg (by decide : ¬ false = true)]
      rw [List.filter_eq_self]
      intro r hr
      simp only [Bool.not_eq_true', beq_eq_false_iff_ne]
      intro h
      exact hhd ⟨r, hr, h⟩
    · have hhdid : hd.appointment_id ≠ A.appointment_id := fun h => hhd ⟨A, hmem, h.symm⟩
      have hhdA : ¬(hd == A) := by
        simp only [beq_iff_eq]
        intro h
        exact hhdid (by rw [h])
      rw [List.filter_cons, List.erase_cons_tail hhdA]
      simp only [beq_iff_eq, hhdid, Bool.not_eq_true', decide_eq_false_iff_not]
      rw [if_pos (by simp [beq_iff_eq, hhdid])]
      rw [ih hmem htl]

/-- C6: for every state, deleting an appointment_id matching no row answers 404
and leaves the store unchanged; deleting an existing appointment_id (in a
table with distinct keys) answers 200 and removes exactly that row, so
deleting the same id twice in sequence answers 200 then 404. -/
theorem delete_semantics (s : Store) (aid : Nat) :
    ((∀ r ∈ s.rows, r.appointment_id ≠ aid) →
      deleteAppointment aid s = ((404, msgNotFound), s)) ∧
    (∀ A, A ∈ s.rows → A.appointment_id = aid →
      (s.rows.map Row.appointment_id).Nodup →
      deleteAppointment aid s = ((200, msgDeleted), { s with rows := s.rows.erase A }) ∧
      (deleteAppointment aid (deleteAppointment aid s).2).1 = (404, msgNotFound)) := by
  constructor
  · intro hnone
    have hany : (s.rows.any fun r => r.appointment_id == aid) = false := by
      apply List.any_eq_false.mpr
      intro r hr
      simp [beq_iff_eq, hnone r hr]
    simp [deleteAppointment, hany]
  · intro A hA hAid hids
    have hmem : (s.rows.any fun r => r.appointment_id == aid) = true :=
      List.any_eq_true.mpr ⟨A, hA, by simp [beq_iff_eq, hAid]⟩
    have herase : s.rows.filter (fun r => !(r.appointment_id == aid)) = s.rows.erase A := by
      rw [← hAid]
      exact filter_ne_key_eq_erase s.rows A hA hids
    have hfirst : deleteAppointment aid s =
        ((200, msgDeleted), { s with rows := s.rows.erase A }) := by
      simp [deleteAppointment, hmem, herase]
    refine ⟨hfirst, ?_⟩
    rw [hfirst]
    have hgone : (((s.rows.erase A)).any fun r => r.appointment_id == aid) = false := by
      apply List.any_eq_false.mpr
      intro r hr hcond
      rw [← herase] at hr
      have := List.mem_filter.mp hr
      rw [hcond] at this
      cases this.2
    simp [deleteAppointment, hgone]

/-- C6 witness: on a one-row store, deleting id 5 answers 404 unchanged;
deleting id 0 answers 200 removing the row, and deleting id 0 again answers
404. -/
theorem delete_semantics_witness :
    deleteAppointment 5 ⟨[⟨0, 1, 1, "2025-04-11", "09:00", "Scheduled"⟩], 1⟩ =
      ((404, msgNotFound), ⟨[⟨0, 1, 1, "2025-04-11", "09:00", "Scheduled"⟩], 1⟩) ∧
    deleteAppointment 0 ⟨[⟨0, 1, 1, "2025-04-11", "09:00", "Scheduled"⟩], 1⟩ =
      ((200, msgDeleted), ⟨[], 1⟩) ∧
    (deleteAppointment 0
        (deleteAppointment 0 ⟨[⟨0, 1, 1, "2025-04-11", "09:00", "Scheduled"⟩], 1⟩).2).1 =
      (404, msgNotFound) :=
  ⟨(delete_semantics ⟨[⟨0, 1, 1, "2025-04-11", "09:00", "Scheduled"⟩], 1⟩ 5).1 (by decide),
   ((delete_semantics ⟨[⟨0, 1, 1, "2025-04-11", "09:00", "Scheduled"⟩], 1⟩ 0).2
      ⟨0, 1, 1, "2025-04-11", "09:00", "Scheduled"⟩ (by decide) (by decide) (by decide)).1,
   ((delete_semantics ⟨[⟨0, 1, 1, "2025-04-11", "09:00", "Scheduled"⟩], 1⟩ 0).2
      ⟨0, 1, 1, "2025-04-11", "09:00", "Scheduled"⟩ (by decide) (by decide) (by decide)).2⟩

/-! ### Seeding -/

/-- The rows the seed INSERTs create for a list of tuples, with consecutive
auto-increment ids starting at `n`. -/
def seedRowsFrom (n : Nat) : List SeedTuple → List Row
  | [] => []
  | t :: ts => seedRow n t :: seedRowsFrom (n + 1) ts

/-- Closed form of the seeding fold: starting from any accumulator, it appends
one seed row (with consecutive ids) for each tuple whose existence check
against the routine's starting rows failed. -/
theorem seedFold_eq (s0rows : List Row) (l : List SeedTuple) :
    ∀ s : Store,
      l.foldl (fun acc t => if quadExists s0rows t then acc else pushSeed acc t) s =
        ⟨s.rows ++ seedRowsFrom s.nextId (l.filter fun t => !quadExists s0rows t),
          s.nextId + (l.filter fun t => !quadExists s0rows t).length⟩ := by
  induction l with
  | nil => intro s; simp [seedRowsFrom]
  | cons t ts ih =>
    intro s
    rw [List.foldl_cons, List.filter_cons]
    by_cases hq : quadExists s0rows t
    · rw [if_pos hq, if_neg (by simp [hq]), ih s]
    · rw [if_neg hq, if_pos (by simp [hq]), ih (pushSeed s t)]
      simp [pushSeed, seedRowsFrom, Nat.add_comm, Nat.add_assoc, Nat.add_left_comm]

/-- Every row the seed creates carries status `Scheduled`. -/
theorem seedRowsFrom_status (l : List SeedTuple) :
    ∀ n : Nat, ∀ r ∈ seedRowsFrom n l, r.status = "Scheduled" := by
  induction l with
  | nil => intro n r hr; cases hr
  | cons t ts ih =>
    intro n r hr
    rcases List.mem_cons.mp hr with rfl | hmem
    · rfl
    · exact ih (n + 1) r hmem

/-- The quadruple check distributes over appended tables. -/
theorem quadExists_append (l1 l2 : List Row) (t : SeedTuple) :
    quadExists (l1 ++ l2) t = (quadExists l1 t || quadExists l2 t) := by
  simp [quadExists, List.any_append]

/-- Each seeded tuple is found by the quadruple check in the rows the seed
created for its list. -/
theorem quadExists_seedRowsFrom (t : SeedTuple) (l : List SeedTuple) :
    ∀ n : Nat, t ∈ l → quadExists (seedRowsFrom n l) t = true := by
  induction l with
  | nil => intro n h; cases h
  | cons hd ts ih =>
    intro n h
    rcases List.mem_cons.mp h with rfl | hmem
    · simp [seedRowsFrom, quadExists, seedRow]
    · have := ih (n + 1) hmem
      simp only [seedRowsFrom, quadExists, List.any_cons] at this ⊢
      rw [this]
      simp

/-- A seeding fold whose existence check accepts every tuple is a no-op. -/
theorem seedFold_noop (chk : SeedTuple → Bool) (l : List SeedTuple)
    (h : ∀ t ∈ l, chk t = true) :
    ∀ s : Store, l.foldl (fun acc t => if chk t then acc else pushSeed acc t) s = s := by
  induction l with
  | nil => intro s; rfl
  | cons t ts ih =>
    intro s
    rw [List.foldl_cons, if_pos (h t (List.mem_cons_self t ts))]
    exact ih (fun x hx => h x (List.mem_cons_of_mem t hx)) s

/-- C7: the seed routine inserts exactly those of its fixed tuples whose
(patient_id, doctor_id, appointment_date, appointment_time) quadruple is not
already present — one appended row per missing tuple, each with status
`Scheduled` — and it is idempotent: a second run on the resulting store
inserts nothing and leaves the store unchanged. -/
theorem insertDefaultAppointments_exact_and_idempotent (s : Store) :
    (insertDefaultAppointments s).rows =
      s.rows ++ seedRowsFrom s.nextId
        (defaultAppointments.filter fun t => !quadExists s.rows t) ∧
    (∀ r ∈ seedRowsFrom s.nextId
        (defaultAppointments.filter fun t => !quadExists s.rows t),
      r.status = "Scheduled") ∧
    insertDefaultAppointments (insertDefaultAppointments s) = insertDefaultAppointments s := by
  have hchar : insertDefaultAppointments s =
      ⟨s.rows ++ seedRowsFrom s.nextId
          (defaultAppointments.filter fun t => !quadExists s.rows t),
        s.nextId + (defaultAppointments.filter fun t => !quadExists s.rows t).length⟩ :=
    seedFold_eq s.rows defaultAppointments s
  refine ⟨by rw [hchar], seedRowsFrom_status _ s.nextId, ?_⟩
  have hall : ∀ t ∈ defaultAppointments,
      quadExists (insertDefaultAppointments s).rows t = true := by
    intro t ht
    rw [hchar]
    rw [quadExists_append]
    by_cases hq : quadExists s.rows t
    · rw [hq]; rfl
    · have hmem : t ∈ defaultAppointments.filter fun t => !quadExists s.rows t :=
        List.mem_filter.mpr ⟨ht, by simp [hq]⟩
      rw [quadExists_seedRowsFrom t _ s.nextId hmem]
      simp
  exact seedFold_noop (fun t => quadExists (insertDefaultAppointments s).rows t)
    defaultAppointments hall (insertDefaultAppointments s)

/-! ### The time-slot validator inspects only the minutes component -/

/-- C9: the time-slot validator reads only the minutes component, the piece of
the time string between the first and second colon: whenever that piece is
present, validation succeeds exactly when the piece converts (by the `Number`
builtin) to 0 or 30, regardless of the hour component — so `99:30` and
`-5:00` pass while a non-numeric minutes piece such as in `10:aa` (NaN)
fails — and both book and update accept such inputs as valid slots. -/
theorem isValidTimeSlot_minutes_only :
    (∀ time mstr : String, (jsSplit ':' time)[1]? = some mstr →
      (isValidTimeSlot time = true ↔
        (jsNumber mstr = some 0 ∨ jsNumber mstr = some 30))) ∧
    (isValidTimeSlot "99:30" = true ∧ isValidTimeSlot "-5:00" = true ∧
      isValidTimeSlot "10:aa" = false) ∧
    (bookAppointment ⟨some 1, some 1, some "2025-04-11", some "99:30"⟩ Store.empty).1.1 =
      201 ∧
    (updateAppointment 0 (some "2025-04-11") (some "-5:00") none
        ⟨[⟨0, 1, 1, "2025-04-11", "09:00", "Scheduled"⟩], 1⟩).1.1 = 200 := by
  refine ⟨?_, by decide, by decide, by decide⟩
  intro time mstr h
  unfold isValidTimeSlot
  rcases hl : jsSplit ':' time with _ | ⟨a, _ | ⟨b, rest⟩⟩
  · rw [hl] at h; simp at h
  · rw [hl] at h; simp at h
  · rw [hl] at h
    simp only [List.getElem?_cons_succ, List.getElem?_cons_zero, Option.some.injEq] at h
    rw [h]
    simp only [List.map_cons]
    rcases hm : jsNumber mstr with _ | m
    · simp
    · simp [beq_iff_eq]

/-- C9 witness: applied to `99:30`, whose minutes piece is `30`: the validator
accepts it. -/
theorem isValidTimeSlot_minutes_only_witness :
    isValidTimeSlot "99:30" = true ↔
      (jsNumber "30" = some 0 ∨ jsNumber "30" = some 30) :=
  isValidTimeSlot_minutes_only.1 "99:30" "30" (by decide)

/-- C1 witness: the invariant at the seeded store itself (the empty request
sequence). -/
theorem reachable_triples_distinct_witness :
    TriplesDistinct (runOps []).rows :=
  reachable_triples_distinct.1 []

/-- C7 witness: a second seeding of the freshly seeded empty store changes
nothing. -/
theorem insertDefaultAppointments_exact_and_idempotent_witness :
    insertDefaultAppointments (insertDefaultAppointments Store.empty) =
      insertDefaultAppointments Store.empty :=
  (insertDefaultAppointments_exact_and_idempotent Store.empty).2.2
